import Mathlib

/-!
Shallow embedding of the drink-list parsing and normalization core
(`src/import.rs`, `src/models.rs`, `src/db.rs`, `src/reports.rs`).

Modelling conventions:
* Machine floats (`f32`) are modelled as exact rationals.  Every numeric
  value reaching the claims arises from parsing short decimal strings,
  and none of the statements below depends on binary rounding.
* Panics (`expect`, `unwrap`, `assert`, `expect_none`) are modelled by an
  `Option` result, with `none` for the panic.
* The concrete regexes of the source are modelled by explicit
  leftmost-first matchers that follow the structure of each pattern,
  including the greedy/lazy priorities and the backtracking the rust
  `regex` crate's leftmost-first capture semantics produce on these
  patterns.  The class `\d` is modelled as the regex crate's Unicode
  decimal-digit category `Nd` (so non-ASCII digits are captured, and the
  subsequent ASCII-only float parse fails on them exactly as
  `f32::from_str` does); `\s` and `\w` are modelled by their ASCII
  parts, which are the only characters the statements below exercise in
  those positions.
-/

set_option maxRecDepth 4000

namespace DrinkList

/-- ASCII model of the regex class `\s`; also used for `str::trim`. -/
def isSpaceChar (c : Char) : Bool :=
  c == ' ' || c == '\t' || c == '\n' || c == '\r' || c == '\u000b' || c == '\u000c'

/-- ASCII model of the regex class `\w`. -/
def isWordChar (c : Char) : Bool :=
  c.isAlphanum || c == '_'

/-- The scalar-value ranges of the Unicode decimal-digit category `Nd`
(Unicode 14.0), which is what the regex crate's `\d` matches. -/
def ndRanges : List (Nat × Nat) :=
  [(0x30, 0x39), (0x660, 0x669), (0x6F0, 0x6F9), (0x7C0, 0x7C9),
   (0x966, 0x96F), (0x9E6, 0x9EF), (0xA66, 0xA6F), (0xAE6, 0xAEF),
   (0xB66, 0xB6F), (0xBE6, 0xBEF), (0xC66, 0xC6F), (0xCE6, 0xCEF),
   (0xD66, 0xD6F), (0xDE6, 0xDEF), (0xE50, 0xE59), (0xED0, 0xED9),
   (0xF20, 0xF29), (0x1040, 0x1049), (0x1090, 0x1099), (0x17E0, 0x17E9),
   (0x1810, 0x1819), (0x1946, 0x194F), (0x19D0, 0x19D9), (0x1A80, 0x1A89),
   (0x1A90, 0x1A99), (0x1B50, 0x1B59), (0x1BB0, 0x1BB9), (0x1C40, 0x1C49),
   (0x1C50, 0x1C59), (0xA620, 0xA629), (0xA8D0, 0xA8D9), (0xA900, 0xA909),
   (0xA9D0, 0xA9D9), (0xA9F0, 0xA9F9), (0xAA50, 0xAA59), (0xABF0, 0xABF9),
   (0xFF10, 0xFF19), (0x104A0, 0x104A9), (0x10D30, 0x10D39),
   (0x11066, 0x1106F), (0x110F0, 0x110F9), (0x11136, 0x1113F),
   (0x111D0, 0x111D9), (0x112F0, 0x112F9), (0x11450, 0x11459),
   (0x114D0, 0x114D9), (0x11650, 0x11659), (0x116C0, 0x116C9),
   (0x11730, 0x11739), (0x118E0, 0x118E9), (0x11950, 0x11959),
   (0x11C50, 0x11C59), (0x11D50, 0x11D59), (0x11DA0, 0x11DA9),
   (0x16A60, 0x16A69), (0x16AC0, 0x16AC9), (0x16B50, 0x16B59),
   (0x1D7CE, 0x1D7FF), (0x1E140, 0x1E149), (0x1E2F0, 0x1E2F9),
   (0x1E950, 0x1E959), (0x1FBF0, 0x1FBF9)]

/-- The regex class `\d`: Unicode `Nd` membership.  Note the contrast
with `Char.isDigit` (ASCII `0`-`9`), which models what `f32::from_str`
and chrono's numeric items accept. -/
def isDigitChar (c : Char) : Bool :=
  ndRanges.any (fun r => decide (r.1 ≤ c.toNat) && decide (c.toNat ≤ r.2))

/-- Numeric value of a list of decimal digits. -/
def digitsToNat (ds : List Char) : Nat :=
  ds.foldl (fun n c => 10 * n + (c.toNat - 48)) 0

/-- Decimal parsing (`f32::from_str`) restricted to the token shapes the
numeric regexes can capture: a nonempty digit run with an optional
fraction part.  `f32::from_str` accepts only ASCII digits
(`Char.isDigit`), so a captured token of non-ASCII `\d` digits fails
here — the parse-panic path of the source.  The magnitude is kept exact
as a rational. -/
def parseDecimal (cs : List Char) : Option ℚ :=
  if cs.takeWhile Char.isDigit = [] then none
  else
    match cs.dropWhile Char.isDigit with
    | [] => some (digitsToNat (cs.takeWhile Char.isDigit))
    | c :: r2 =>
      if c = '.' then
        if r2.takeWhile Char.isDigit = [] then none
        else if r2.dropWhile Char.isDigit = [] then
          some ((digitsToNat (cs.takeWhile Char.isDigit) : ℚ)
            + (digitsToNat (r2.takeWhile Char.isDigit) : ℚ)
              / (10 : ℚ) ^ (r2.takeWhile Char.isDigit).length)
        else none
      else none

/-- `parse_value` as defined identically on `QuantityRange`, `Abv` and
`VolumeContext`: a leading tilde marks the value approximate and every
leading tilde is stripped (`trim_start_matches`) before the float parse.
The `expect` on a failed float parse is modelled as `none`. -/
def parse_value (cs : List Char) : Option (Bool × ℚ) :=
  (parseDecimal (cs.dropWhile (fun c => c == '~'))).map
    (fun q => (cs.head? == some '~', q))

/-- `APPROX_MODIFIER` from `models.rs`: applied to approximate values. -/
def APPROX_MODIFIER : ℚ := 1 / 10

/-- `ApproxF32` from `models.rs`; the `f32` magnitude is modelled as `ℚ`. -/
structure ApproxF32 where
  num : ℚ
  is_approximate : Bool
deriving DecidableEq, Repr

/-- Numeric value of `(!self.is_approximate as i32) as f32`. -/
def notAsNum (b : Bool) : ℚ := if b then 0 else 1

/-- `ApproxF32::min`: the branch-free lower bound of `models.rs`,
`self.num * (1.0 - (APPROX_MODIFIER + ((!self.is_approximate as i32) as f32 * -1.0 * APPROX_MODIFIER)))`. -/
def ApproxF32.min (a : ApproxF32) : ℚ :=
  a.num * (1 - (APPROX_MODIFIER + notAsNum a.is_approximate * (-1) * APPROX_MODIFIER))

/-- `ApproxF32::max`: the branch-free upper bound of `models.rs`. -/
def ApproxF32.max (a : ApproxF32) : ℚ :=
  a.num * (1 + (APPROX_MODIFIER + notAsNum a.is_approximate * (-1) * APPROX_MODIFIER))

/-- Modelled from the spec: `lower_bound()` = magnitude·(1 − 0.1) if
approximate else magnitude (the conditional reference definition). -/
def ApproxF32.lower_bound_spec (a : ApproxF32) : ℚ :=
  if a.is_approximate then a.num * (1 - 1 / 10) else a.num

/-- Modelled from the spec: `upper_bound()` = magnitude·(1 + 0.1) if
approximate else magnitude (the conditional reference definition). -/
def ApproxF32.upper_bound_spec (a : ApproxF32) : ℚ :=
  if a.is_approximate then a.num * (1 + 1 / 10) else a.num

/-- Rust `(x * 100.0).trunc() as i32`: truncation toward zero of `100·x`,
exact on the rational model. -/
def truncHundredths (q : ℚ) : ℤ :=
  Int.tdiv (q * 100).num ((q * 100).den : ℤ)

/-- `Abv` from `import.rs` (an ABV range with per-bound approximate flags). -/
structure Abv where
  min : ℚ
  max : ℚ
  approximate_min : Bool
  approximate_max : Bool
deriving DecidableEq, Repr

/-- `impl PartialEq for Abv`: truncated integer hundredths of both bounds
plus the two approximate flags. -/
def Abv.beq (a b : Abv) : Bool :=
  (truncHundredths a.min == truncHundredths b.min)
    && (truncHundredths a.max == truncHundredths b.max)
    && (a.approximate_min == b.approximate_min)
    && (a.approximate_max == b.approximate_max)

/-- Greedy match of `\d+(?:\.\d+)?` at the head of the input (with `\d`
the Unicode class `isDigitChar`), returning the captured token and the
rest.  Maximal munch is faithful here: in every continuation of the
three numeric patterns a shorter digit or fraction run leaves a digit or
a dot in front, which no continuation can consume (the volume pattern,
whose `\w{2,}` unit can consume digits, gets its own backtracking
matcher below). -/
def numTokenCore (cs : List Char) : Option (List Char × List Char) :=
  if cs.takeWhile isDigitChar = [] then none
  else
    match cs.dropWhile isDigitChar with
    | [] => some (cs.takeWhile isDigitChar, [])
    | c :: r2 =>
      if c = '.' then
        if r2.takeWhile isDigitChar = [] then some (cs.takeWhile isDigitChar, c :: r2)
        else some (cs.takeWhile isDigitChar ++ c :: r2.takeWhile isDigitChar,
                   r2.dropWhile isDigitChar)
      else some (cs.takeWhile isDigitChar, c :: r2)

/-- Match of `~?\d+(?:\.\d+)?` at the head of the input.  When the head is
a tilde the digits must follow it (the `~?`-empty alternative would have
to match `\d+` against the tilde and fails). -/
def numToken (cs : List Char) : Option (List Char × List Char) :=
  match cs with
  | [] => none
  | c :: rest =>
    if c = '~' then (numTokenCore rest).map (fun p => (c :: p.1, p.2))
    else numTokenCore (c :: rest)

/-- Optional range tail `\s*\-\s*(~?\d+(?:\.\d+)?)` of the quantity
pattern, returning the second captured token and the rest. -/
def rangeTail (cs : List Char) : Option (List Char × List Char) :=
  match cs.dropWhile isSpaceChar with
  | [] => none
  | c :: r2 =>
    if c = '-' then numToken (r2.dropWhile isSpaceChar)
    else none

/-- The quantity pattern
`(~?\d+(?:\.\d+)?)(?:\s*\-\s*(~?\d+(?:\.\d+)?))?` at one position:
first capture plus the optional second capture. -/
def quantityMatchAt (cs : List Char) : Option (List Char × Option (List Char)) :=
  (numToken cs).map (fun p =>
    match rangeTail p.2 with
    | some q => (p.1, some q.1)
    | none => (p.1, none))

/-- Leftmost match of the quantity pattern (the regex is unanchored). -/
def quantityFind : List Char → Option (List Char × Option (List Char))
  | [] => none
  | c :: rest =>
    match quantityMatchAt (c :: rest) with
    | some r => some r
    | none => quantityFind rest

/-- `QuantityRange` from `import.rs`. -/
structure QuantityRange where
  min : ℚ
  max : ℚ
  approximate_min : Bool
  approximate_max : Bool
deriving DecidableEq, Repr

/-- `QuantityRange::from_entry`, taking the raw quantity field.  A missing
field panics (`expect`), an unmatched regex panics (`captures(..).unwrap()`),
and a failed `parse_value` panics; each is modelled as `none`.  Captured
tokens contain no whitespace, so the `trim`/nonempty filter of
`cap_index` is the identity on them. -/
def QuantityRange.from_entry (quantity : Option String) : Option QuantityRange :=
  match quantity with
  | none => none
  | some s =>
    match quantityFind s.data with
    | none => none
    | some (t1, ot2) =>
      match parse_value t1 with
      | none => none
      | some mn =>
        match ot2 with
        | none => some ⟨mn.2, mn.2, mn.1, mn.1⟩
        | some t2 =>
          match parse_value t2 with
          | none => none
          | some mx => some ⟨mn.2, mx.2, mn.1, mx.1⟩

/-- Head test for the final literal `%` of the ABV pattern. -/
def headPercent (cs : List Char) : Bool :=
  match cs with
  | c :: _ => c == '%'
  | [] => false

/-- Range tail of the ABV pattern,
`\s*\-\s*(~?\d+(?:\.\d+)?)%?` followed by the final `%`.  After the
second number the tail succeeds exactly when a `%` follows: either the
optional `%` is taken and the final `%` follows it, or the optional `%`
is left empty and that same character is the final `%`. -/
def abvTail (cs : List Char) : Option (List Char) :=
  match cs.dropWhile isSpaceChar with
  | [] => none
  | c :: r2 =>
    if c = '-' then
      match numToken (r2.dropWhile isSpaceChar) with
      | none => none
      | some (t2, r3) => if headPercent r3 then some t2 else none
    else none

/-- The ABV pattern
`(~?\d+(?:\.\d+)?)%?(?:\s*\-\s*(~?\d+(?:\.\d+)?)%?)?%` at one position,
in the regex backtracking order: the first `%?` greedy, then the range
group, then the final `%`. -/
def abvMatchAt (cs : List Char) : Option (List Char × Option (List Char)) :=
  match numToken cs with
  | none => none
  | some (t1, r1) =>
    match r1 with
    | [] => none
    | c :: r2 =>
      if c = '%' then
        match abvTail r2 with
        | some t2 => some (t1, some t2)
        | none =>
          if headPercent r2 then some (t1, none)
          else
            match abvTail r1 with
            | some t2 => some (t1, some t2)
            | none => some (t1, none)
      else
        match abvTail r1 with
        | some t2 => some (t1, some t2)
        | none => if headPercent r1 then some (t1, none) else none

/-- Leftmost match of the ABV pattern. -/
def abvFind : List Char → Option (List Char × Option (List Char))
  | [] => none
  | c :: rest =>
    match abvMatchAt (c :: rest) with
    | some r => some r
    | none => abvFind rest

/-- `Abv::from_entry`.  The outer `Option` is the panic: `none` models the
`expect("A minimum ABV is required!")` on an empty first capture and the
`parse_value` panics.  `some none` is the documented "no ABV" result for
an absent field or an unmatched pattern; an empty second capture falls
back to the minimum (`unwrap_or(min)`). -/
def Abv.from_entry (abv : Option String) : Option (Option Abv) :=
  match abv with
  | none => some none
  | some s =>
    match abvFind s.data with
    | none => some none
    | some (t1, ot2) =>
      if t1 = [] then none
      else
        match parse_value t1 with
        | none => none
        | some mn =>
          match ot2 with
          | none => some (some ⟨mn.2, mn.2, mn.1, mn.1⟩)
          | some t2 =>
            if t2 = [] then some (some ⟨mn.2, mn.2, mn.1, mn.1⟩)
            else
              match parse_value t2 with
              | none => none
              | some mx => some (some ⟨mn.2, mx.2, mn.1, mx.1⟩)

/-- `VolumeUnit` from `models.rs`. -/
inductive VolumeUnit where
  | FlOz
  | mL
  | cL
  | L
deriving DecidableEq, Repr

/-- `VolumeUnit::from_str` from `models.rs` (case-insensitive). -/
def VolumeUnit.from_str (unit : String) : Option VolumeUnit :=
  if unit.toLower = "fl oz" ∨ unit.toLower = "oz" then some .FlOz
  else if unit.toLower = "ml" then some .mL
  else if unit.toLower = "cl" then some .cL
  else if unit.toLower = "l" then some .L
  else none

/-- Candidate lengths `[n, n-1, ..., 1]` of a greedy `\d+`, longest first,
used where the volume pattern may backtrack into a digit run. -/
def downFrom : Nat → List Nat
  | 0 => []
  | n + 1 => (n + 1) :: downFrom n

/-- The `\s*(?P<unit>\w{2,})` continuation of the volume pattern after a
candidate volume token: maximal whitespace, then a maximal word-character
run of length at least two. -/
def volUnitAfter (tok rest : List Char) : Option (List Char × List Char) :=
  if 2 ≤ ((rest.dropWhile isSpaceChar).takeWhile isWordChar).length then
    some (tok, (rest.dropWhile isSpaceChar).takeWhile isWordChar)
  else none

/-- The greedy fraction alternatives `(?:\.\d+)?` of the volume pattern
(with giveback, since the unit can consume digits), then the unit. -/
def volWithFrac (ids rest1 : List Char) : Option (List Char × List Char) :=
  (match rest1 with
   | c :: r =>
     if c = '.' then
       (downFrom (r.takeWhile isDigitChar).length).findSome? (fun m =>
         volUnitAfter (ids ++ c :: (r.takeWhile isDigitChar).take m)
           ((r.takeWhile isDigitChar).drop m ++ r.dropWhile isDigitChar))
     else none
   | [] => none)
  <|> volUnitAfter ids rest1

/-- The digit alternatives of `\d+` in the volume pattern, longest first. -/
def volMatchCore (cs : List Char) : Option (List Char × List Char) :=
  (downFrom (cs.takeWhile isDigitChar).length).findSome? (fun n =>
    volWithFrac ((cs.takeWhile isDigitChar).take n)
      ((cs.takeWhile isDigitChar).drop n ++ cs.dropWhile isDigitChar))

/-- The volume pattern `(?P<volume>~?\d+(?:\.\d+)?)\s*(?P<unit>\w{2,})` at
one position, returning the volume and unit captures. -/
def volMatchAt (cs : List Char) : Option (List Char × List Char) :=
  match cs with
  | [] => none
  | c :: rest =>
    if c = '~' then (volMatchCore rest).map (fun p => (c :: p.1, p.2))
    else volMatchCore (c :: rest)

/-- Leftmost match of the volume pattern. -/
def volFind : List Char → Option (List Char × List Char)
  | [] => none
  | c :: rest =>
    match volMatchAt (c :: rest) with
    | some r => some r
    | none => volFind rest

/-- The unit dispatch of `VolumeContext::from_entry`: the `match` over the
lowercased unit capture.  The catch-all arm prints a warning and returns
`None`; `VolumeUnit::from_str` agrees with the four recognized arms, so
`original_unit` is the same constructor. -/
def unitFromChars (u : List Char) : Option VolumeUnit :=
  if u = "oz".data then some .FlOz
  else if u = "ml".data then some .mL
  else if u = "cl".data then some .cL
  else if u = "l".data then some .L
  else none

/-- `VolumeContext` from `import.rs`.  The `uom` SI value is not modelled;
the struct keeps the parsed magnitude in the original unit, which is all
the claims use. -/
structure VolumeContext where
  amount : ℚ
  approximate : Bool
  original_unit : VolumeUnit
deriving DecidableEq, Repr

/-- `VolumeContext::from_entry`.  An absent field, an unmatched pattern
and an unrecognized unit token all return `none`; lowercasing the volume
capture (digits, dot, tilde) is the identity, so `parse_value` is applied
to the raw capture. -/
def VolumeContext.from_entry (volume : Option String) : Option VolumeContext :=
  match volume with
  | none => none
  | some s =>
    match volFind s.data with
    | none => none
    | some (vtok, utok) =>
      match parse_value vtok with
      | none => none
      | some av =>
        match unitFromChars (utok.map Char.toLower) with
        | none => none
        | some un => some ⟨av.2, av.1, un⟩

/-- `Drink` from `import.rs` (the deduplication identity). -/
structure Drink where
  name : String
  abv : Option Abv
  multiplier : ℚ
deriving DecidableEq, Repr

/-- Derived `PartialEq` on `Option<Abv>`. -/
def abvOptBeq : Option Abv → Option Abv → Bool
  | none, none => true
  | some a, some b => Abv.beq a b
  | _, _ => false

/-- `impl PartialEq for Drink`: exact name, ABV equality as above, and
truncated integer hundredths of the multiplier. -/
def Drink.beq (a b : Drink) : Bool :=
  (a.name == b.name) && abvOptBeq a.abv b.abv
    && (truncHundredths a.multiplier == truncHundredths b.multiplier)

/-- `DrinkSet` from `import.rs`: the two hash maps are modelled as
association lists with the same key equalities. -/
structure DrinkSet where
  drinks : List (Int × Drink)
  lookup : List (Drink × Int)
deriving DecidableEq, Repr

/-- `DrinkSet::new`. -/
def DrinkSet.new : DrinkSet := ⟨[], []⟩

/-- `HashMap<i32, Drink>` lookup. -/
def lookupId (l : List (Int × Drink)) (id : Int) : Option Drink :=
  (l.find? (fun p => p.1 == id)).map (fun p => p.2)

/-- `HashMap<Drink, i32>` lookup, keyed by `Drink` equality. -/
def lookupDrink (l : List (Drink × Int)) (d : Drink) : Option Int :=
  (l.find? (fun p => Drink.beq p.1 d)).map (fun p => p.2)

/-- `DrinkSet::find`. -/
def DrinkSet.find (s : DrinkSet) (d : Drink) : Option Int :=
  lookupDrink s.lookup d

/-- `DrinkSet::insert`: both `HashMap::insert` calls are guarded by
`expect_none("Overwrote something!")`, so an existing id key or an
existing identity key panics; the panic is modelled as `none`. -/
def DrinkSet.insert (s : DrinkSet) (id : Int) (d : Drink) : Option DrinkSet :=
  match lookupId s.drinks id with
  | some _ => none
  | none =>
    match lookupDrink s.lookup d with
    | some _ => none
    | none => some ⟨(id, d) :: s.drinks, (d, id) :: s.lookup⟩

/-- A sequence of `insert` calls during an import run (a panic aborts). -/
def applyOps : DrinkSet → List (Int × Drink) → Option DrinkSet
  | s, [] => some s
  | s, (id, d) :: rest =>
    match s.insert id d with
    | none => none
    | some s2 => applyOps s2 rest

/-- Each id is bound at most once, and each identity—up to `Drink`
equality—is bound at most once. -/
def distinctKeys (s : DrinkSet) : Prop :=
  s.drinks.Pairwise (fun p q => p.1 ≠ q.1)
    ∧ s.lookup.Pairwise (fun p q => Drink.beq p.1 q.1 = false)

/-- `LiquidVolume` from `models.rs`. -/
structure LiquidVolume where
  amount : ApproxF32
  unit : VolumeUnit
deriving DecidableEq, Repr

/-- `Entry` from `db.rs`, restricted to the fields the aggregation reads
(identifiers, context and timestamps are omitted). -/
structure Entry where
  min_abv : Option ApproxF32
  max_abv : Option ApproxF32
  multiplier : ℚ
  min_quantity : ApproxF32
  max_quantity : ApproxF32
  volume : Option LiquidVolume
  volume_ml : Option LiquidVolume
deriving DecidableEq, Repr

/-- `Entry::min_quantity()`: lower bound of the minimum quantity. -/
def Entry.min_quantity_val (e : Entry) : ℚ := e.min_quantity.min

/-- `Entry::max_quantity()`: upper bound of the maximum quantity. -/
def Entry.max_quantity_val (e : Entry) : ℚ := e.max_quantity.max

/-- `Entry::min_abv()`. -/
def Entry.min_abv_val (e : Entry) : Option ℚ := e.min_abv.map ApproxF32.min

/-- `Entry::max_abv()`. -/
def Entry.max_abv_val (e : Entry) : Option ℚ := e.max_abv.map ApproxF32.max

/-- `Entry::has_abv` with its `assert_eq!` (both bounds present or both
absent); `none` models the assertion panic. -/
def Entry.has_abv (e : Entry) : Option Bool :=
  if e.min_abv.isSome = e.max_abv.isSome then some e.min_abv.isSome else none

/-- `DrinkAggregate` from `reports.rs`. -/
structure DrinkAggregate where
  min_drinks : ℚ
  max_drinks : ℚ
  min_volume : Option LiquidVolume
  max_volume : Option LiquidVolume
deriving DecidableEq, Repr

/-- `DrinkAggregator::aggregate` for `Entry` from `reports.rs`:
the quantity-only fallback when ABV or volume is unknown, and the
volume-based formula (one standard drink = 18 mL of alcohol) otherwise. -/
def Entry.aggregate (e : Entry) : Option DrinkAggregate :=
  match e.has_abv with
  | none => none
  | some hasAbv =>
    if !hasAbv || !e.volume.isSome then
      some ⟨e.min_quantity_val * e.multiplier,
            e.max_quantity_val * e.multiplier,
            e.volume.map (fun v =>
              { v with amount := { v.amount with num := v.amount.num * e.min_quantity_val * e.multiplier } }),
            e.volume.map (fun v =>
              { v with amount := { v.amount with num := v.amount.num * e.max_quantity_val * e.multiplier } })⟩
    else
      match e.min_abv_val, e.max_abv_val, e.volume_ml with
      | some mnAbv, some mxAbv, some vml =>
        some ⟨e.min_quantity_val * (mnAbv / 100) * vml.amount.min / 18,
              e.max_quantity_val * (mxAbv / 100) * vml.amount.max / 18,
              e.volume.map (fun v =>
                { v with amount := { v.amount with num := v.amount.min * e.min_quantity_val * e.multiplier } }),
              e.volume.map (fun v =>
                { v with amount := { v.amount with num := v.amount.max * e.max_quantity_val * e.multiplier } })⟩
      | _, _, _ => none

/-- `TimePeriod` from `models.rs`. -/
inductive TimePeriod where
  | Morning
  | Afternoon
  | Evening
  | Night
deriving DecidableEq, Repr

/-- `TimePeriod::from_str` (exact lowercase names; the callers lowercase
their tokens first). -/
def TimePeriod.from_str (time : List Char) : Option TimePeriod :=
  if time = "morning".data then some .Morning
  else if time = "afternoon".data then some .Afternoon
  else if time = "evening".data then some .Evening
  else if time = "night".data then some .Night
  else none

/-- `TimePeriod::is_time_string`. -/
def TimePeriod.is_time_string (time : List Char) : Bool :=
  (TimePeriod.from_str time).isSome

/-- Calendar dates as chrono `NaiveDate` content. -/
structure Date where
  year : Int
  month : Nat
  day : Nat
deriving DecidableEq, Repr

/-- Gregorian leap-year rule. -/
def isLeapYear (y : Int) : Bool :=
  y % 4 == 0 && (y % 100 != 0 || y % 400 == 0)

/-- Length of a month. -/
def daysInMonth (y : Int) (m : Nat) : Nat :=
  if m = 2 then (if isLeapYear y then 29 else 28)
  else if m = 4 ∨ m = 6 ∨ m = 9 ∨ m = 11 then 30
  else 31

/-- `NaiveDate::from_ymd`, which panics on an invalid date (modelled as
`none`). -/
def fromYmd (y : Int) (m d : Nat) : Option Date :=
  if 1 ≤ m ∧ m ≤ 12 ∧ 1 ≤ d ∧ d ≤ daysInMonth y m then some ⟨y, m, d⟩ else none

/-- Split into maximal whitespace-free words (chrono treats the space in a
format string as an arbitrary whitespace run). -/
def words (cs : List Char) : List (List Char) :=
  (cs.foldr
    (fun c acc =>
      if isSpaceChar c then [] :: acc
      else
        match acc with
        | [] => [[c]]
        | w :: ws => (c :: w) :: ws)
    []).filter (fun w => w ≠ [])

/-- The chrono `%b` item: a three-letter English month abbreviation,
case-insensitive. -/
def monthAbbrev (w : List Char) : Option Nat :=
  if String.mk (w.map Char.toLower) = "jan" then some 1
  else if String.mk (w.map Char.toLower) = "feb" then some 2
  else if String.mk (w.map Char.toLower) = "mar" then some 3
  else if String.mk (w.map Char.toLower) = "apr" then some 4
  else if String.mk (w.map Char.toLower) = "may" then some 5
  else if String.mk (w.map Char.toLower) = "jun" then some 6
  else if String.mk (w.map Char.toLower) = "jul" then some 7
  else if String.mk (w.map Char.toLower) = "aug" then some 8
  else if String.mk (w.map Char.toLower) = "sep" then some 9
  else if String.mk (w.map Char.toLower) = "oct" then some 10
  else if String.mk (w.map Char.toLower) = "nov" then some 11
  else if String.mk (w.map Char.toLower) = "dec" then some 12
  else none

/-- The chrono `%e` item: a one- or two-digit day number.  chrono's
numeric parsing accepts only ASCII digits, unlike the regex `\d` that
produced the token. -/
def parseDayNum (w : List Char) : Option Nat :=
  if w ≠ [] ∧ w.length ≤ 2 ∧ w.all Char.isDigit = true then some (digitsToNat w)
  else none

/-- The chrono format `"%b %e"` (month then day). -/
def parseMonthDay (ws : List (List Char)) : Option (Nat × Nat) :=
  match ws with
  | [w1, w2] => (monthAbbrev w1).bind (fun m => (parseDayNum w2).map (fun d => (m, d)))
  | _ => none

/-- The chrono format `"%e %b"` (day then month), the backup format. -/
def parseDayMonth (ws : List (List Char)) : Option (Nat × Nat) :=
  match ws with
  | [w1, w2] => (parseDayNum w1).bind (fun d => (monthAbbrev w2).map (fun m => (m, d)))
  | _ => none

/-- `DateContext::parse_date_string`: try `"%b %e"` then `"%e %b"`, take
the year from the previous date, adding one exactly when the parsed day
and month are both 1.  Parse failures and invalid dates panic (`none`). -/
def parse_date_string (date : String) (previous : Date) : Option Date :=
  match parseMonthDay (words date.data) <|> parseDayMonth (words date.data) with
  | none => none
  | some (m, d) =>
    fromYmd (if d = 1 ∧ m = 1 then previous.year + 1 else previous.year) m d

/-- Characters a context capture can contain: the class `[^\r\n;,]`. -/
def isCtxChar (c : Char) : Bool :=
  !(c == '\r' || c == '\n' || c == ';' || c == ',')

/-- The class `[;,]` closing a context capture. -/
def isSep (c : Char) : Bool := c == ';' || c == ','

/-- The class `[,; ]` between the day token and the context captures. -/
def isDaySep (c : Char) : Bool := c == ',' || c == ';' || c == ' '

/-- The tail group `(?:(?P<context1>[^\r\n;,]*?)[;,]?)?$`: the remainder
must be a separator-free chunk optionally closed by a single `;` or `,`;
the lazy capture excludes that closing separator. -/
def matchCtx1 (r : List Char) : Option (List Char) :=
  match r.dropWhile isCtxChar with
  | [] => some r
  | c :: rest2 => if isSep c ∧ rest2 = [] then some (r.takeWhile isCtxChar) else none

/-- The two context groups
`(?:(?P<context2>[^\r\n;,]*?)[;,]?)?(?:(?P<context1>[^\r\n;,]*?)[;,]?)?$`
with the backtracking priorities: `context2` lazy (shortest first), its
`[;,]?` greedy, then the `context1` group. -/
def matchBC (r : List Char) : Option (List Char × List Char) :=
  (List.range ((r.takeWhile isCtxChar).length + 1)).findSome? (fun j =>
    match r.drop j with
    | [] => (matchCtx1 []).map (fun c1 => (r.take j, c1))
    | c :: rest2 =>
      if isSep c then
        match matchCtx1 rest2 with
        | some c1 => some (r.take j, c1)
        | none => (matchCtx1 (c :: rest2)).map (fun c1 => (r.take j, c1))
      else (matchCtx1 (c :: rest2)).map (fun c1 => (r.take j, c1)))

/-- The alternatives of the optional day group
`(?:\d{1,2}\s\w{3})|(?:\w{3}\s\d{1,2})` in priority order (first
alternation branch first, greedy `\d{1,2}` longest first), each returning
the day capture and the rest. -/
def dayAlts (cs : List Char) : List (List Char × List Char) :=
  List.reduceOption
    [match cs with
     | d1 :: d2 :: s :: w1 :: w2 :: w3 :: rest =>
       if isDigitChar d1 = true ∧ isDigitChar d2 = true ∧ isSpaceChar s = true
          ∧ isWordChar w1 = true ∧ isWordChar w2 = true ∧ isWordChar w3 = true
       then some ([d1, d2, s, w1, w2, w3], rest) else none
     | _ => none,
     match cs with
     | d1 :: s :: w1 :: w2 :: w3 :: rest =>
       if isDigitChar d1 = true ∧ isSpaceChar s = true
          ∧ isWordChar w1 = true ∧ isWordChar w2 = true ∧ isWordChar w3 = true
       then some ([d1, s, w1, w2, w3], rest) else none
     | _ => none,
     match cs with
     | w1 :: w2 :: w3 :: s :: d1 :: d2 :: rest =>
       if isWordChar w1 = true ∧ isWordChar w2 = true ∧ isWordChar w3 = true
          ∧ isSpaceChar s = true ∧ isDigitChar d1 = true ∧ isDigitChar d2 = true
       then some ([w1, w2, w3, s, d1, d2], rest) else none
     | _ => none,
     match cs with
     | w1 :: w2 :: w3 :: s :: d1 :: rest =>
       if isWordChar w1 = true ∧ isWordChar w2 = true ∧ isWordChar w3 = true
          ∧ isSpaceChar s = true ∧ isDigitChar d1 = true
       then some ([w1, w2, w3, s, d1], rest) else none
     | _ => none]

/-- The full date-field pattern of `DateContext::from_entry`: an optional
day token (each alternative tried, falling through to the day-absent
branch when the continuation fails), the greedy `[,; ]*` run, then the
two context groups.  Returns the day, `context2` and `context1` captures. -/
def dateFieldMatch (cs : List Char) : Option (Option (List Char) × List Char × List Char) :=
  match (dayAlts cs).findSome? (fun p =>
      (matchBC (p.2.dropWhile isDaySep)).map (fun q => (some p.1, q.1, q.2))) with
  | some r => some r
  | none => (matchBC (cs.dropWhile isDaySep)).map (fun q => ((none : Option (List Char)), q.1, q.2))

/-- Trim of surrounding whitespace (`str::trim`, ASCII model). -/
def trimChars (l : List Char) : List Char :=
  ((l.dropWhile isSpaceChar).reverse.dropWhile isSpaceChar).reverse

/-- The `cap_str` helper of `DateContext::from_entry`: trim, drop empty
captures, lowercase. -/
def cleanCap (l : List Char) : Option (List Char) :=
  if trimChars l = [] then none else some ((trimChars l).map Char.toLower)

/-- `DateContext` from `import.rs`. -/
structure DateContext where
  date : Date
  time : TimePeriod
  context : List String
deriving DecidableEq, Repr

/-- `DateContext::from_entry`, taking the raw date field and the previous
context.  `none` models the panics: an unmatched date-field pattern
(`captures(..).unwrap()`), a failed date parse, and the
"Found two time strings" case. -/
def DateContext.from_entry (dateField : Option String) (previous : DateContext) :
    Option DateContext :=
  match dateField with
  | none => some previous
  | some s =>
    match dateFieldMatch s.data with
    | none => none
    | some (dayRaw, c2raw, c1raw) =>
      match (match dayRaw.bind cleanCap with
             | some d => parse_date_string (String.mk d) previous.date
             | none => some previous.date) with
      | none => none
      | some date =>
        match (match (cleanCap c1raw).isSome && TimePeriod.is_time_string ((cleanCap c1raw).getD []),
                     (cleanCap c2raw).isSome && TimePeriod.is_time_string ((cleanCap c2raw).getD []) with
               | true, false => TimePeriod.from_str ((cleanCap c1raw).getD [])
               | false, true => TimePeriod.from_str ((cleanCap c2raw).getD [])
               | false, false =>
                 some (if (cleanCap c1raw == some ("brunch".data)) || (cleanCap c2raw == some ("brunch".data))
                       then TimePeriod.Afternoon
                       else if date = previous.date then previous.time else TimePeriod.Night)
               | true, true => none) with
        | none => none
        | some time =>
          some ⟨date, time,
                (([cleanCap c1raw, cleanCap c2raw].reduceOption).filter
                  (fun c => !TimePeriod.is_time_string c)).map String.mk⟩

/-- Concrete identity: a drink with no ABV. -/
def drinkA : Drink := ⟨"beer", none, 1⟩

/-- Concrete identity: a second distinct drink with no ABV. -/
def drinkB : Drink := ⟨"wine", none, 1⟩

/-- Concrete identity: a drink with ABV 5.001%. -/
def drinkC : Drink := ⟨"ipa", some ⟨mkRat 5001 1000, 6, false, false⟩, 1⟩

/-- Concrete identity: the same drink with ABV 5.004%, equal to `drinkC`
under the truncated-hundredths equality. -/
def drinkC2 : Drink := ⟨"ipa", some ⟨mkRat 5004 1000, 6, false, false⟩, 1⟩

/-- Registry state after inserting `drinkC` with id 7. -/
def setC : DrinkSet := ⟨[(7, drinkC)], [(drinkC, 7)]⟩

/-- Registry state after inserting `drinkA` (id 1) and `drinkB` (id 2). -/
def setAB : DrinkSet := ⟨[(2, drinkB), (1, drinkA)], [(drinkB, 2), (drinkA, 1)]⟩

/-- Concrete entry: no ABV, no volume, exact quantity range 1–2,
multiplier 1. -/
def entryNoAbv : Entry := ⟨none, none, 1, ⟨1, false⟩, ⟨2, false⟩, none, none⟩

/-- Concrete ABV range with minimum 0.999. -/
def abv8a : Abv := ⟨mkRat 999 1000, 5, false, false⟩

/-- Concrete ABV range with minimum 1.001, within 0.002 of `abv8a`. -/
def abv8b : Abv := ⟨mkRat 1001 1000, 5, false, false⟩

theorem numTokenCore_ne {cs t r : List Char} (h : numTokenCore cs = some (t, r)) :
    t ≠ [] := by
  unfold numTokenCore at h
  split at h
  · exact Option.noConfusion h
  next hne =>
    split at h
    · have h2 := Option.some.inj h
      injection h2 with h3 h4
      subst h3
      exact hne
    next c r2 heq =>
      split at h
      next hc =>
        split at h
        next hfs =>
          have h2 := Option.some.inj h
          injection h2 with h3 h4
          subst h3
          exact hne
        next hfs =>
          have h2 := Option.some.inj h
          injection h2 with h3 h4
          subst h3
          simp
      next hc =>
        have h2 := Option.some.inj h
        injection h2 with h3 h4
        subst h3
        exact hne

theorem numToken_ne {cs t r : List Char} (h : numToken cs = some (t, r)) : t ≠ [] := by
  cases cs with
  | nil => exact Option.noConfusion h
  | cons c rest =>
    simp only [numToken] at h
    by_cases hc : c = '~'
    · rw [if_pos hc] at h
      cases hcore : numTokenCore rest with
      | none => rw [hcore] at h; exact Option.noConfusion h
      | some p =>
        rw [hcore] at h
        have h2 : (c :: p.1, p.2) = (t, r) := Option.some.inj h
        injection h2 with h3 h4
        rw [← h3]
        simp
    · rw [if_neg hc] at h
      exact numTokenCore_ne h

theorem abvMatchAt_ne {cs t1 : List Char} {ot2 : Option (List Char)}
    (h : abvMatchAt cs = some (t1, ot2)) : t1 ≠ [] := by
  unfold abvMatchAt at h
  split at h
  · exact Option.noConfusion h
  next t0 r1 hnum =>
    have hg1 := numToken_ne hnum
    split at h
    · exact Option.noConfusion h
    next c r2 =>
      split at h
      next hc =>
        split at h
        next u ht =>
          have h2 := Option.some.inj h
          injection h2 with h3 h4
          subst h3
          exact hg1
        next ht =>
          split at h
          next hp =>
            have h2 := Option.some.inj h
            injection h2 with h3 h4
            subst h3
            exact hg1
          next hp =>
            split at h
            next u ht1 =>
              have h2 := Option.some.inj h
              injection h2 with h3 h4
              subst h3
              exact hg1
            next ht1 =>
              have h2 := Option.some.inj h
              injection h2 with h3 h4
              subst h3
              exact hg1
      next hc =>
        split at h
        next u ht =>
          have h2 := Option.some.inj h
          injection h2 with h3 h4
          subst h3
          exact hg1
        next ht =>
          split at h
          next hp =>
            have h2 := Option.some.inj h
            injection h2 with h3 h4
            subst h3
            exact hg1
          next hp => exact Option.noConfusion h

theorem abvFind_ne : ∀ (cs : List Char) {t1 : List Char} {ot2 : Option (List Char)},
    abvFind cs = some (t1, ot2) → t1 ≠ [] := by
  intro cs
  induction cs with
  | nil => intro t1 ot2 h; exact Option.noConfusion h
  | cons c rest ih =>
    intro t1 ot2 h
    unfold abvFind at h
    cases hm : abvMatchAt (c :: rest) with
    | some r0 =>
      rw [hm] at h
      have h2 : r0 = (t1, ot2) := Option.some.inj h
      subst h2
      exact abvMatchAt_ne hm
    | none =>
      rw [hm] at h
      exact ih h

/-- C9 (counterexample): the quantity field "1.2.3" is malformed with
respect to the quantity grammar, yet the parser silently coerces it to
the range 1.2–1.2 (the leftmost regex match) instead of failing with a
hard error. -/
theorem quantity_silently_parses_counterexample :
    QuantityRange.from_entry (some "1.2.3") = some ⟨mkRat 6 5, mkRat 6 5, false, false⟩
      ∧ decide (QuantityRange.from_entry (some "1.2.3") = none) = false := by
  with_unfolding_all decide

/-- C9 (amended): a present quantity field whose text contains no match
of the numeric pattern at all is a hard error (the `unwrap` of the failed
regex match panics, modelled `none`); but malformed numeric text is not
otherwise rejected: whenever the text contains a numeric token anywhere,
the parser silently uses the leftmost match and ignores the surrounding
malformed content — "1.2.3" parses as the exact range 1.2–1.2 — and a
matched token of non-ASCII decimal digits (which the Unicode `\d`
captures, e.g. "١") still fails hard afterwards, in the float parse (the
`InvalidNumber` path). -/
theorem quantity_leftmost_or_error :
    (∀ s : String, quantityFind s.data = none → QuantityRange.from_entry (some s) = none)
    ∧ QuantityRange.from_entry (some "1.2.3") = some ⟨mkRat 6 5, mkRat 6 5, false, false⟩
    ∧ quantityFind ("١".data) = some (['١'], none)
    ∧ QuantityRange.from_entry (some "١") = none := by
  refine ⟨?_, ?_, ?_, ?_⟩
  · intro s h
    simp [QuantityRange.from_entry, h]
  · with_unfolding_all decide
  · decide
  · decide

/-- C10 (counterexample): for the ABV field "٣%" — an Arabic-Indic
decimal digit, matched by the regex's Unicode `\d` — the parser returns
neither "no ABV" nor a populated range: the captured token "٣" fails the
ASCII-only float parse and the parser panics (modelled `none`), so the
claimed universal "returns either no ABV or a fully populated range"
fails. -/
theorem abv_unicode_digit_counterexample :
    abvFind ("٣%".data) = some (['٣'], none)
      ∧ Abv.from_entry (some "٣%") = none
      ∧ decide ((Abv.from_entry (some "٣%")).isSome = true) = false := by
  refine ⟨by decide, by decide, by decide⟩

/-- C10 (amended): whenever the ABV pattern matches, its first capture
group is a nonempty numeric token, so the "A minimum ABV is required!"
failure branch (the spec's `MissingAbv`) is indeed unreachable — every
abort of the ABV parser is instead a float-parse failure on a nonempty
captured token, which a non-ASCII `\d` digit such as "٣%" actually
reaches, so the parser does not return no-ABV-or-a-range for every
input. -/
theorem abv_missing_min_unreachable :
    (∀ (cs t1 : List Char) (ot2 : Option (List Char)),
        abvFind cs = some (t1, ot2) → t1 ≠ [])
    ∧ (∀ s : String, Abv.from_entry (some s) = none →
        ∃ t1 ot2, abvFind s.data = some (t1, ot2) ∧ t1 ≠ []
          ∧ (parse_value t1 = none
              ∨ ∃ t2, ot2 = some t2 ∧ t2 ≠ [] ∧ parse_value t2 = none)) := by
  constructor
  · intro cs t1 ot2 h
    exact abvFind_ne cs h
  · intro s h
    cases hf : abvFind s.data with
    | none => simp [Abv.from_entry, hf] at h
    | some p =>
      obtain ⟨t1, ot2⟩ := p
      have hne := abvFind_ne s.data hf
      refine ⟨t1, ot2, rfl, hne, ?_⟩
      cases hv1 : parse_value t1 with
      | none => exact Or.inl rfl
      | some mn =>
        cases ot2 with
        | none => simp [Abv.from_entry, hf, hne, hv1] at h
        | some t2 =>
          by_cases ht2 : t2 = []
          · subst ht2
            simp [Abv.from_entry, hf, hne, hv1] at h
          · cases hv2 : parse_value t2 with
            | none => exact Or.inr ⟨t2, rfl, ht2, hv2⟩
            | some mx => simp [Abv.from_entry, hf, hne, ht2, hv1, hv2] at h

theorem beq_symmetric {α : Type} [BEq α] [LawfulBEq α] (a b : α) : (a == b) = (b == a) := by
  rw [Bool.eq_iff_iff]
  simp only [beq_iff_eq]
  exact eq_comm

theorem abv_beq_symm (a b : Abv) : Abv.beq a b = Abv.beq b a := by
  unfold Abv.beq
  rw [beq_symmetric (truncHundredths a.min) (truncHundredths b.min),
      beq_symmetric (truncHundredths a.max) (truncHundredths b.max),
      beq_symmetric a.approximate_min b.approximate_min,
      beq_symmetric a.approximate_max b.approximate_max]

theorem abvOptBeq_symm (a b : Option Abv) : abvOptBeq a b = abvOptBeq b a := by
  cases a with
  | none => cases b <;> rfl
  | some x =>
    cases b with
    | none => rfl
    | some y => exact abv_beq_symm x y

theorem drink_beq_symm (a b : Drink) : Drink.beq a b = Drink.beq b a := by
  unfold Drink.beq
  rw [beq_symmetric a.name b.name, abvOptBeq_symm a.abv b.abv,
      beq_symmetric (truncHundredths a.multiplier) (truncHundredths b.multiplier)]

theorem insert_eq_some (s : DrinkSet) (id : Int) (d : Drink) (s2 : DrinkSet)
    (h : s.insert id d = some s2) :
    lookupId s.drinks id = none ∧ lookupDrink s.lookup d = none
      ∧ s2 = ⟨(id, d) :: s.drinks, (d, id) :: s.lookup⟩ := by
  unfold DrinkSet.insert at h
  cases h1 : lookupId s.drinks id with
  | some x => simp [h1] at h
  | none =>
    cases h2 : lookupDrink s.lookup d with
    | some x => simp [h1, h2] at h
    | none =>
      simp [h1, h2] at h
      exact ⟨rfl, rfl, h.symm⟩

theorem insert_distinct (s : DrinkSet) (id : Int) (d : Drink) (s2 : DrinkSet)
    (h : s.insert id d = some s2) (hd : distinctKeys s) : distinctKeys s2 := by
  obtain ⟨h1, h2, h3⟩ := insert_eq_some s id d s2 h
  subst h3
  have hf1 : s.drinks.find? (fun p => p.1 == id) = none := by
    simpa [lookupId] using h1
  have hf2 : s.lookup.find? (fun p => Drink.beq p.1 d) = none := by
    simpa [lookupDrink] using h2
  have hall1 := List.find?_eq_none.mp hf1
  have hall2 := List.find?_eq_none.mp hf2
  constructor
  · rw [List.pairwise_cons]
    refine ⟨?_, hd.1⟩
    intro p hp heq
    exact hall1 p hp (beq_iff_eq.mpr heq.symm)
  · rw [List.pairwise_cons]
    refine ⟨?_, hd.2⟩
    intro p hp
    have hne : ¬Drink.beq p.1 d = true := hall2 p hp
    rw [drink_beq_symm]
    exact Bool.not_eq_true (Drink.beq p.1 d) ▸ (Bool.eq_false_iff.mpr hne)

theorem applyOps_distinct : ∀ (ops : List (Int × Drink)) (s0 s : DrinkSet),
    distinctKeys s0 → applyOps s0 ops = some s → distinctKeys s := by
  intro ops
  induction ops with
  | nil =>
    intro s0 s h0 h
    simp [applyOps] at h
    exact h ▸ h0
  | cons op rest ih =>
    intro s0 s h0 h
    obtain ⟨oid, od⟩ := op
    cases hins : s0.insert oid od with
    | none => simp [applyOps, hins] at h
    | some s1 =>
      simp only [applyOps, hins] at h
      exact ih s1 s (insert_distinct s0 oid od s1 hins h0) h

/-- C7: for every `ApproxF32`, the branch-free arithmetic bounds of
`models.rs` coincide with the spec's conditional reference definition:
`min` is `num·(1 − 0.1)` when approximate and exactly `num` otherwise
(the non-approximate factor reduces to exactly 1), and symmetrically for
`max`. -/
theorem approx_bounds_match_spec (a : ApproxF32) :
    a.min = a.lower_bound_spec ∧ a.max = a.upper_bound_spec := by
  cases h : a.is_approximate <;>
    simp [ApproxF32.min, ApproxF32.max, ApproxF32.lower_bound_spec,
      ApproxF32.upper_bound_spec, notAsNum, APPROX_MODIFIER, h]

/-- C8 (counterexample): the ABV ranges 0.999–5 and 1.001–5 have matching
flags and corresponding bounds differing by less than 0.01, yet they are
not equal under `Abv` equality — the claimed metric tolerance fails at a
hundredth-bucket boundary. -/
theorem abv_tolerance_counterexample :
    abv8b.min - abv8a.min < 1 / 100 ∧ abv8a.min - abv8b.min < 1 / 100
      ∧ abv8a.max = abv8b.max
      ∧ abv8a.approximate_min = abv8b.approximate_min
      ∧ abv8a.approximate_max = abv8b.approximate_max
      ∧ Abv.beq abv8a abv8b = false := by with_unfolding_all decide

/-- C8 (amended): `Abv` equality compares truncated integer hundredths of
both bounds together with the approximate flags; sub-0.01 differences
within the same hundredth bucket are ignored — in particular 5.001 and
5.004 form the same identity key. -/
theorem abv_equality_truncated_hundredths :
    (∀ a b : Abv, Abv.beq a b = true ↔
      (truncHundredths a.min = truncHundredths b.min
        ∧ truncHundredths a.max = truncHundredths b.max
        ∧ a.approximate_min = b.approximate_min
        ∧ a.approximate_max = b.approximate_max))
    ∧ Abv.beq ⟨mkRat 5001 1000, mkRat 5001 1000, false, false⟩
        ⟨mkRat 5004 1000, mkRat 5004 1000, false, false⟩ = true := by
  constructor
  · intro a b
    simp [Abv.beq, Bool.and_eq_true, beq_iff_eq, and_assoc]
  · with_unfolding_all decide

/-- C1 (counterexample): with previous date 2018-12-20 the date field
"2 jan" does not resolve to 2019-01-02 as claimed; the code resolves it
to 2018-01-02, because `parse_date_string` increments the year only when
the parsed day and month are exactly January 1. -/
theorem new_year_rollover_counterexample :
    parse_date_string "2 jan" ⟨2018, 12, 20⟩ = some ⟨2018, 1, 2⟩
      ∧ decide (parse_date_string "2 jan" ⟨2018, 12, 20⟩ = some ⟨2019, 1, 2⟩) = false := by
  decide

/-- C1 (amended): for previous date 2018-12-20, "2 jan" resolves to
2018-01-02 — the year is carried over unchanged — while "1 jan" resolves
to 2019-01-01: the year is incremented exactly when the parsed day/month
is January 1, not whenever the date would roll backward. -/
theorem new_year_rollover_amended :
    parse_date_string "2 jan" ⟨2018, 12, 20⟩ = some ⟨2018, 1, 2⟩
      ∧ parse_date_string "1 jan" ⟨2018, 12, 20⟩ = some ⟨2019, 1, 1⟩ := by decide

/-- C2 (counterexample): for previous context {2018-01-01, Evening, []}
and date field "5 jan, brunch", the resolved context list is not empty as
claimed — the token "brunch" sets the time period but is retained. -/
theorem brunch_context_counterexample :
    decide (DateContext.from_entry (some "5 jan, brunch") ⟨⟨2018, 1, 1⟩, .Evening, []⟩
        = some ⟨⟨2018, 1, 5⟩, .Afternoon, []⟩) = false
      ∧ (DateContext.from_entry (some "5 jan, brunch") ⟨⟨2018, 1, 1⟩, .Evening, []⟩).map
          (fun c => c.context) = some ["brunch"] := by decide

/-- C2 (amended): for previous context {2018-01-01, Evening, []} and date
field "5 jan, brunch", the resolved date is 2018-01-05 and the time is
Afternoon as claimed, but the context list is ["brunch"]: only recognized
time-period names are removed from the context, so "brunch" is both
consumed as the time signal and retained as a tag. -/
theorem brunch_scenario_amended :
    DateContext.from_entry (some "5 jan, brunch") ⟨⟨2018, 1, 1⟩, .Evening, []⟩
      = some ⟨⟨2018, 1, 5⟩, .Afternoon, ["brunch"]⟩ := by decide

/-- C6: whenever the ABV range is unknown or the volume is unknown (and
the entry satisfies the both-or-neither ABV assertion), the aggregation
returns `min_drinks = min_quantity.lower_bound × multiplier` and
`max_drinks = max_quantity.upper_bound × multiplier`. -/
theorem aggregate_fallback_formula (e : Entry)
    (habv : e.min_abv.isSome = e.max_abv.isSome)
    (hfall : e.min_abv = none ∨ e.volume = none) :
    (e.aggregate).map DrinkAggregate.min_drinks = some (e.min_quantity_val * e.multiplier)
      ∧ (e.aggregate).map DrinkAggregate.max_drinks = some (e.max_quantity_val * e.multiplier) := by
  rcases hfall with h | h
  · have hmax : e.max_abv = none := by
      cases hm : e.max_abv with
      | none => rfl
      | some x => rw [h, hm] at habv; simp at habv
    simp [Entry.aggregate, Entry.has_abv, h, hmax]
  · simp [Entry.aggregate, Entry.has_abv, habv, h]

/-- Witness for C6 at an entry with no ABV, no volume, exact quantity
range 1–2 and multiplier 1: `min_drinks` is 1 and `max_drinks` is 2. -/
theorem aggregate_fallback_witness :
    (entryNoAbv.min_abv.isSome = entryNoAbv.max_abv.isSome
      ∧ (entryNoAbv.min_abv = none ∨ entryNoAbv.volume = none))
      ∧ (entryNoAbv.aggregate).map DrinkAggregate.min_drinks = some 1
      ∧ (entryNoAbv.aggregate).map DrinkAggregate.max_drinks = some 2 := by
  have h := aggregate_fallback_formula entryNoAbv rfl (Or.inl rfl)
  refine ⟨⟨rfl, Or.inl rfl⟩, ?_, ?_⟩
  · rw [h.1]; with_unfolding_all decide
  · rw [h.2]; with_unfolding_all decide

/-- C4: `DrinkSet::insert` fails loudly (panics, modelled as `none`)
whenever the id or the identity is already registered, and consequently
after any sequence of successful inserts starting from the empty registry
each id is bound to exactly one identity and each identity — up to
`Drink` equality — to exactly one id. -/
theorem registry_insert_fails_loudly :
    (∀ (s : DrinkSet) (id : Int) (d : Drink),
        lookupId s.drinks id ≠ none ∨ lookupDrink s.lookup d ≠ none →
        s.insert id d = none)
    ∧ (∀ (ops : List (Int × Drink)) (s : DrinkSet),
        applyOps DrinkSet.new ops = some s → distinctKeys s) := by
  constructor
  · intro s id d h
    unfold DrinkSet.insert
    rcases h with h | h
    · cases h1 : lookupId s.drinks id with
      | none => exact absurd h1 h
      | some x => rfl
    · cases h1 : lookupId s.drinks id with
      | some x => rfl
      | none =>
        cases h2 : lookupDrink s.lookup d with
        | some x => rfl
        | none => exact absurd h2 h
  · intro ops s h
    exact applyOps_distinct ops DrinkSet.new s ⟨List.Pairwise.nil, List.Pairwise.nil⟩ h

/-- Witness for C4: inserting under the occupied id 7 fails on a concrete
registry, and a concrete two-insert run yields a registry with distinct
keys on both sides. -/
theorem registry_insert_fails_loudly_witness :
    lookupId setC.drinks 7 = some drinkC
      ∧ DrinkSet.insert setC 7 drinkA = none
      ∧ applyOps DrinkSet.new [(1, drinkA), (2, drinkB)] = some setAB
      ∧ distinctKeys setAB := by
  refine ⟨rfl, ?_, rfl, ?_⟩
  · exact registry_insert_fails_loudly.1 setC 7 drinkA
      (Or.inl (by simp [setC, drinkC, lookupId, List.find?]))
  · exact registry_insert_fails_loudly.2 [(1, drinkA), (2, drinkB)] setAB rfl

/-- C5: after a successful `insert(id, d)`, `find` returns `some id` for
every identity equal to `d` under `Drink` equality (identical name,
ABV bounds equal at truncated two-decimal precision with matching flags,
multiplier equal at two decimals). -/
theorem registry_find_after_insert (s : DrinkSet) (id : Int) (d : Drink) (s2 : DrinkSet)
    (d2 : Drink) (hins : s.insert id d = some s2) (heq : Drink.beq d2 d = true) :
    s2.find d2 = some id := by
  obtain ⟨h1, h2, h3⟩ := insert_eq_some s id d s2 hins
  subst h3
  unfold DrinkSet.find lookupDrink
  dsimp only
  have hp : Drink.beq d d2 = true := by
    rw [drink_beq_symm]
    exact heq
  simp [List.find?, hp]

/-- Witness for C5: inserting the 5.001%-ABV "ipa" under id 7 into the
empty registry and looking up the 5.004%-ABV variant (equal under the
truncated-hundredths tolerance) returns id 7. -/
theorem registry_find_after_insert_witness :
    (DrinkSet.new.insert 7 drinkC = some setC ∧ Drink.beq drinkC2 drinkC = true)
      ∧ setC.find drinkC2 = some 7 := by
  refine ⟨⟨rfl, by with_unfolding_all decide⟩, ?_⟩
  exact registry_find_after_insert DrinkSet.new 7 drinkC setC drinkC2 rfl
    (by with_unfolding_all decide)

end DrinkList
